import Mathlib

/-!
Verification development for the Attio ↔ Better Auth bidirectional sync
plugin.  The TypeScript source is embedded shallowly: JSON-ish runtime
values become the inductive `Val`, records become association lists, the
host persistence layer (an abstract keyed store with
`findOne/findMany/create/update/delete` operations, an external
collaborator of the plugin) becomes pure functions over a list-shaped
database, and the reconciliation endpoints become state-passing
functions that additionally return the trace of writes and of outbound
webhook dispatches they perform.  JavaScript `null` and `undefined` are
both modelled as `Val.null`.
-/

/-- Model of the JSON-ish values the plugin passes around: strings,
booleans, arrays, and `null` (which also stands for `undefined`). -/
inductive Val where
  | null
  | str (s : String)
  | bool (b : Bool)
  | arr (xs : List Val)

mutual

def valDecEq : (a b : Val) → Decidable (a = b)
  | .null, .null => .isTrue rfl
  | .null, .str _ => .isFalse (by simp)
  | .null, .bool _ => .isFalse (by simp)
  | .null, .arr _ => .isFalse (by simp)
  | .str _, .null => .isFalse (by simp)
  | .str a, .str b =>
    if h : a = b then .isTrue (by rw [h]) else .isFalse (by simp [h])
  | .str _, .bool _ => .isFalse (by simp)
  | .str _, .arr _ => .isFalse (by simp)
  | .bool _, .null => .isFalse (by simp)
  | .bool _, .str _ => .isFalse (by simp)
  | .bool a, .bool b =>
    if h : a = b then .isTrue (by rw [h]) else .isFalse (by simp [h])
  | .bool _, .arr _ => .isFalse (by simp)
  | .arr _, .null => .isFalse (by simp)
  | .arr _, .str _ => .isFalse (by simp)
  | .arr _, .bool _ => .isFalse (by simp)
  | .arr xs, .arr ys =>
    match valListDecEq xs ys with
    | .isTrue h => .isTrue (by rw [h])
    | .isFalse h => .isFalse (by simpa using h)

def valListDecEq : (a b : List Val) → Decidable (a = b)
  | [], [] => .isTrue rfl
  | [], _ :: _ => .isFalse (by simp)
  | _ :: _, [] => .isFalse (by simp)
  | x :: xs, y :: ys =>
    match valDecEq x y, valListDecEq xs ys with
    | .isTrue h1, .isTrue h2 => .isTrue (by rw [h1, h2])
    | .isFalse h1, _ => .isFalse (by simp [h1])
    | _, .isFalse h2 => .isFalse (by simp [h2])

end

instance : DecidableEq Val := valDecEq

/-- JavaScript truthiness on the modelled values: `null`/`undefined`,
the empty string and `false` are falsy; everything else is truthy. -/
def jsTruthy : Val → Bool
  | .null => false
  | .str s => s ≠ ""
  | .bool b => b
  | .arr _ => true

/-- JavaScript `a || b` on modelled values. -/
def jsOr (a b : Val) : Val := if jsTruthy a then a else b

/-- A record (a plain JavaScript object) as an association list from
field names to values; lookups return the first binding. -/
abbrev Rec := List (String × Val)

/-- Field access `r.k`: `none` when the field is absent. -/
def getF (r : Rec) (k : String) : Option Val :=
  (r.find? (fun p => p.1 == k)).map (·.2)

/-- Field access defaulting to `null`, the value a JavaScript property
read yields on an absent key. -/
def getFD (r : Rec) (k : String) : Val := (getF r k).getD .null

/-- Assignment `r.k = v`: overwrite the existing binding, or append. -/
def setF (r : Rec) (k : String) (v : Val) : Rec :=
  if r.any (fun p => p.1 == k) then
    r.map (fun p => if p.1 == k then (k, v) else p)
  else r ++ [(k, v)]

/-- Object spread `{ ...r, ...patch }`: every binding of `patch` is
assigned over `r` in order. -/
def mergeRec (r patch : Rec) : Rec :=
  patch.foldl (fun acc p => setF acc p.1 p.2) r

/-- A `where` clause of the host persistence interface: a list of
field-equality predicates. -/
abbrev Wh := List (String × Val)

/-- Whether a row satisfies every field-equality predicate of a `where`
clause. -/
def rowMatches (r : Rec) (w : Wh) : Bool :=
  w.all (fun c => getF r c.1 == some c.2)

/-- The database of the host persistence layer: a list of rows tagged
with their model name.  Spec §6 describes this collaborator interface:
`findOne/findMany/create/update/delete`, each operating on named models
and field-equality predicates. -/
abbrev DB := List (String × Rec)

/-- Host collaborator `adapter.findOne`: first row of the model matching
the clause. -/
def dbFindOne (db : DB) (model : String) (w : Wh) : Option Rec :=
  (db.find? (fun e => e.1 == model && rowMatches e.2 w)).map (·.2)

/-- Host collaborator `adapter.findMany`: all rows of the model matching
the clause. -/
def dbFindMany (db : DB) (model : String) (w : Wh) : List Rec :=
  (db.filter (fun e => e.1 == model && rowMatches e.2 w)).map (·.2)

/-- Host collaborator `adapter.delete`: remove every row of the model
matching the clause. -/
def dbDelete (db : DB) (model : String) (w : Wh) : DB :=
  db.filter (fun e => !(e.1 == model && rowMatches e.2 w))

/-- Host collaborator `adapter.update`: merge the patch into every row
of the model matching the clause; also return the updated first match,
which is what the call yields to its caller (`null` when nothing
matched). -/
def dbUpdate (db : DB) (model : String) (w : Wh) (patch : Rec) :
    DB × Option Rec :=
  (db.map (fun e =>
      if e.1 == model && rowMatches e.2 w then (e.1, mergeRec e.2 patch)
      else e),
   (dbFindOne db model w).map (fun r => mergeRec r patch))

/-- Host collaborator `adapter.create`: append a row; the call returns
the created row to its caller. -/
def dbCreate (db : DB) (model : String) (data : Rec) : DB :=
  db ++ [(model, data)]

/-- Host collaborator `ctx.generateId`: modelled as a deterministic
placeholder (the generated id itself is opaque to the plugin). -/
def ctxGenerateId (model : String) : String := model ++ "_generated_id"

/-- One element of Attio's typed multi-valued field envelope.  Payload
properties that the extractor reads directly are modelled as `Val`
(absent ↦ `null`); the two `"prop" in item` presence tests of the
source get explicit flags. -/
structure AttioItem where
  attribute_type : Option String
  email_address : Val := .null
  phone_number : Val := .null
  original_phone_number : Val := .null
  target_record_id : Val := .null
  full_name : Val := .null
  hasValue : Bool := false
  value : Val := .null
  hasReferencedActorId : Bool := false
  referenced_actor_id : Val := .null
deriving DecidableEq

/-- The raw external representation of one field as it reaches
`extractAttioValue`: either not an array at all (including absent), or
an array of envelope elements. -/
inductive FieldData where
  | notCollection
  | collection (items : List AttioItem)
deriving DecidableEq

/-- Per-element extraction (`extractSingleValue` in
`src/unnamed/part_004`): branch on the attribute type tag, then on the
generic `value` property, then on `referenced_actor_id`. -/
def extractSingleValue (item : AttioItem) : Val :=
  if item.attribute_type == some "email-address" then
    item.email_address
  else if item.attribute_type == some "phone-number" then
    jsOr item.phone_number item.original_phone_number
  else if item.attribute_type == some "record-reference" then
    item.target_record_id
  else if item.attribute_type == some "personal-name" then
    item.full_name
  else if item.hasValue then
    item.value
  else if item.hasReferencedActorId then
    item.referenced_actor_id
  else
    .null

/-- Value Extractor (`extractAttioValue` in `src/unnamed/part_004`):
`null` for a non-array or empty input, the bare extracted value for a
one-element array, and the ordered array of per-element extractions
otherwise. -/
def extractAttioValue (fieldData : FieldData) : Val :=
  match fieldData with
  | .notCollection => .null
  | .collection [] => .null
  | .collection [item] => extractSingleValue item
  | .collection items => .arr (items.map extractSingleValue)

mutual

/-- Structural size of a value, used to show a value is never equal to
an array strictly containing it. -/
def valSize : Val → Nat
  | .null => 1
  | .str _ => 1
  | .bool _ => 1
  | .arr xs => 1 + valListSize xs

/-- Structural size of a list of values. -/
def valListSize : List Val → Nat
  | [] => 0
  | v :: vs => valSize v + valListSize vs

end

/-- Error responses of the endpoint layer. -/
inductive ApiError where
  | unauthorized
  | notFound
  | internalServerError
deriving DecidableEq

/-- The secret the endpoints compare against
(`opts.secret || ctx.context.secret` in `validateSecret`,
`src/unnamed/part_006`): the plugin option when it is a truthy string,
otherwise the auth context's secret. -/
def effectiveSecret (optsSecret : Option String) (ctxSecret : String) :
    String :=
  match optsSecret with
  | some s => if s ≠ "" then s else ctxSecret
  | none => ctxSecret

/-- Shared-secret check (`validateSecret` in `src/unnamed/part_006`):
reject with UNAUTHORIZED only when the effective secret is truthy and
the request body's secret differs from it. -/
def validateSecret (optsSecret : Option String) (ctxSecret : String)
    (bodySecret : String) : Option ApiError :=
  let secret := effectiveSecret optsSecret ctxSecret
  if secret ≠ "" ∧ bodySecret ≠ secret then some .unauthorized else none

/-- Sync event kinds driving outbound naming and inbound branch
selection. -/
inductive SyncEvent where
  | create
  | update
  | delete
deriving DecidableEq

/-- Policy when an inbound update references an external id with no
local counterpart. -/
inductive OnMissing where
  | create
  | delete
  | ignore
deriving DecidableEq

/-- A write performed against the host persistence layer, recorded in
order of execution. -/
inductive WriteOp where
  | create (model : String) (data : Rec)
  | update (model : String) (w : Wh) (patch : Rec)
  | delete (model : String) (w : Wh)
deriving DecidableEq

/-- An outbound dispatch: one invocation of `sendWebhookEvent` with the
event kind and the record payload handed to it. -/
abbrev OutEvent := SyncEvent × Rec

/-- Result of an adapter's inbound transform: the optional local patch
(`none` when the adapter fully handled persistence itself), the
database it leaves behind, and the writes it performed — or a thrown
exception, which also leaves behind whatever writes happened before
the throw. -/
inductive FromAttioResult where
  | ok (patch : Option Rec) (db : DB) (ops : List WriteOp)
  | err (db : DB) (ops : List WriteOp)

/-- Per-model strategy object (`ModelAdapter` in
`src/unnamed/part_002`): model identifiers, the two transforms, and the
sync-behavior configuration.  The declarative `attioSchema` carries no
behavior the claims touch and is omitted from the embedding. -/
structure ModelAdapter where
  betterAuthModel : String
  attioObject : String
  toAttio : SyncEvent → Rec → DB → Option Rec
  fromAttio : SyncEvent → Rec → DB → FromAttioResult
  onMissing : Option OnMissing := none
  syncDeletions : Option Bool := none

/-- Placeholder for `new Date()` timestamps; their concrete value is
irrelevant to every claim. -/
def nowVal : Val := .str "now"

/-- One outbound HTTP POST attempted by the dispatcher: the endpoint's
URL and the JSON envelope's event name and transformed payload (the
timestamp and static adapter metadata of the envelope carry no behavior
and are omitted). -/
structure Post where
  url : Val
  event : SyncEvent
  data : Rec
deriving DecidableEq

/-- Observable outcome of one outbound dispatch: the database it leaves
behind, whether the integration-endpoint list was fetched, and the
POSTs attempted. -/
structure SendResult where
  db : DB
  fetchedIntegrations : Bool
  posts : List Post

/-- Outbound Dispatcher (`sendWebhookEvent` in
`src/src/adapters/send-event.ts`): transform via `adapter.toAttio`;
a `null` transform suppresses delivery entirely, otherwise the list of
registered integration endpoints is fetched and one POST goes to each.
Delivery failures are logged per endpoint and do not affect the result,
so they are not modelled. -/
def sendWebhookEvent (event : SyncEvent) (data : Rec)
    (modelAdapter : ModelAdapter) (db : DB) : SendResult :=
  match modelAdapter.toAttio event data db with
  | none => ⟨db, false, []⟩
  | some attioData =>
      let webhooks := dbFindMany db "attioIntegration" []
      ⟨db, true,
        webhooks.map (fun w => ⟨getFD w "webhookUrl", event, attioData⟩)⟩

/-- Collapse each run of consecutive dashes to a single dash. -/
def collapseDashes : List Char → List Char
  | '-' :: '-' :: rest => collapseDashes ('-' :: rest)
  | c :: rest => c :: collapseDashes rest
  | [] => []
termination_by l => l.length

/-- Slug generation (`generateSlug` in `src/unnamed/part_004`):
lowercase, replace every run of characters outside `[a-z0-9]` with a
single dash, trim dashes at both ends, truncate to 50 characters. -/
def generateSlug (name : String) : String :=
  let mapped := name.toLower.toList.map
    (fun c => if ('a' ≤ c ∧ c ≤ 'z') ∨ ('0' ≤ c ∧ c ≤ '9') then c else '-')
  let collapsed := collapseDashes mapped
  let trimmed :=
    ((collapsed.dropWhile (· == '-')).reverse.dropWhile (· == '-')).reverse
  String.mk (trimmed.take 50)

/-- Stand-in for the `Math.random()`-derived suffix of
`generateUniqueSlug`; the suffix's concrete characters are
nondeterministic in the source and irrelevant to every claim. -/
def randomSuffix : String := "k3x9qz"

/-- Unique-slug generation (`generateUniqueSlug` in
`src/unnamed/part_004`): the base slug plus a random suffix. -/
def generateUniqueSlug (name : String) : String :=
  generateSlug name ++ "-" ++ randomSuffix

/-- JavaScript `String(x)` on modelled values (`null` and `undefined`
are conflated). -/
def jsString : Val → String
  | .null => "null"
  | .str s => s
  | .bool b => if b then "true" else "false"
  | .arr _ => ""

/-- The source's `extractAttioValue` applied to an already-extracted
plain value, as the user adapter's inbound transform does: a plain
value is not an envelope, so a non-array yields `null` and an array's
elements (plain values without `attribute_type`, `value` or
`referenced_actor_id` properties) each extract to `null`. -/
def extractAttioValueOnVal : Val → Val
  | .arr [] => .null
  | .arr [_] => .null
  | .arr xs => .arr (xs.map (fun _ => Val.null))
  | _ => .null

/-- User adapter outbound transform (`userAdapter.toAttio` in
`src/src/adapters/user.ts`). -/
def userToAttio (event : SyncEvent) (values : Rec) (_db : DB) :
    Option Rec :=
  if event = .delete then
    some [("_deleted", .bool true), ("user_id", getFD values "id")]
  else
    some [("user_id", getFD values "id"),
          ("primary_email_address", getFD values "email"),
          ("name", getFD values "name"),
          ("email_verified", getFD values "emailVerified")]

/-- User adapter inbound transform (`userAdapter.fromAttio` in
`src/src/adapters/user.ts`); it re-applies envelope extraction to the
already-extracted values. -/
def userFromAttio (event : SyncEvent) (values : Rec) (db : DB) :
    FromAttioResult :=
  if event = .delete then
    .ok (some [("id", extractAttioValueOnVal (getFD values "user_id"))]) db []
  else
    let email := extractAttioValueOnVal (getFD values "primary_email_address")
    let name := extractAttioValueOnVal (getFD values "name")
    let emailVerified := extractAttioValueOnVal (getFD values "email_verified")
    let base : Rec := [("attioId", getFD values "record_id")]
    let base := if email ≠ .null then setF base "email" email else base
    let base := if name ≠ .null then setF base "name" name else base
    let base :=
      if emailVerified ≠ .null then setF base "emailVerified" emailVerified
      else base
    if event = .create then
      .ok (some (mergeRec base
        [("id", .str (ctxGenerateId "user")),
         ("createdAt", nowVal), ("updatedAt", nowVal)])) db []
    else
      .ok (some base) db []

/-- Organization adapter outbound transform (`organizationAdapter.toAttio`
in `src/unnamed/part_002`): deletion marker for deletes, otherwise the
organization's fields plus the Attio record ids of its members' users
(members whose user has no truthy `attioId` are skipped). -/
def organizationToAttio (event : SyncEvent) (values : Rec) (db : DB) :
    Option Rec :=
  if event = .delete then
    some [("_deleted", .bool true), ("workspace_id", getFD values "id")]
  else
    let members := dbFindMany db "member" [("organizationId", getFD values "id")]
    let userAttioIds := members.foldl (fun acc m =>
      match dbFindOne db "user" [("id", getFD m "userId")] with
      | some u =>
          if jsTruthy (getFD u "attioId") then acc ++ [getFD u "attioId"]
          else acc
      | none => acc) []
    some [("workspace_id", getFD values "id"),
          ("name", getFD values "name"),
          ("slug", getFD values "slug"),
          ("avatar_url", getFD values "logo"),
          ("users", .arr userAttioIds)]

/-- The external user references carried by an inbound organization
event (`src/unnamed/part_003` lines 152-153): a falsy `users` value
means no references, a single non-array reference is wrapped into a
one-element list. -/
def orgUserRefs (values : Rec) : List Val :=
  let rawUsers := getFD values "users"
  if jsTruthy rawUsers then
    match rawUsers with
    | .arr xs => xs
    | v => [v]
  else []

/-- The member user ids currently recorded for an organization
(`currentUserIds` in `src/unnamed/part_003` line 147). -/
def memberUserIds (db : DB) (orgId : Val) : List Val :=
  (dbFindMany db "member" [("organizationId", orgId)]).map
    (fun m => getFD m "userId")

/-- Membership Reconciler: resolve each external user reference to a
local user id by `attioId` lookup, dropping references with no local
counterpart; collected as a JavaScript `Set` (insertion order, first
occurrence kept). -/
def resolveMemberUserIds (db : DB) (userRefs : List Val) : List Val :=
  userRefs.foldl (fun acc ref =>
    match dbFindOne db "user" [("attioId", ref)] with
    | some u => if getFD u "id" ∈ acc then acc else acc ++ [getFD u "id"]
    | none => acc) []

/-- The membership row created for a newly referenced user
(`src/unnamed/part_003`, creation loop): default role `member`. -/
def mkMemberRow (orgId uid : Val) : Rec :=
  [("organizationId", orgId), ("userId", uid), ("role", .str "member"),
   ("createdAt", nowVal), ("updatedAt", nowVal)]

/-- Membership Reconciler (member-sync section of
`organizationAdapter.fromAttio`, `src/unnamed/part_003` lines 140-196):
load current members, resolve the external references (a single
reference is wrapped into a one-element list, a falsy `users` value
means no references), delete members no longer referenced, create
memberships for newly referenced users. -/
def syncOrganizationMembers (orgId : Val) (values : Rec) (db : DB) :
    DB × List WriteOp :=
  let currentMembers := dbFindMany db "member" [("organizationId", orgId)]
  let currentUserIds := memberUserIds db orgId
  let newUserIds := resolveMemberUserIds db (orgUserRefs values)
  let afterDelete := currentMembers.foldl (fun acc m =>
      if getFD m "userId" ∈ newUserIds then acc
      else
        (dbDelete acc.1 "member"
           [("organizationId", orgId), ("userId", getFD m "userId")],
         acc.2 ++ [.delete "member"
           [("organizationId", orgId), ("userId", getFD m "userId")]]))
    (db, [])
  let afterCreate := newUserIds.foldl (fun acc uid =>
      if uid ∈ currentUserIds then acc
      else
        (dbCreate acc.1 "member" (mkMemberRow orgId uid),
         acc.2 ++ [.create "member" (mkMemberRow orgId uid)]))
    afterDelete
  afterCreate

/-- The organization patch assembled from an inbound event's extracted
values (`orgData` in `src/unnamed/part_003` lines 75-82): the external
id under `attioId`, plus each of name/slug/logo when the extracted
value is not `null`. -/
def orgDataOf (values : Rec) : Rec :=
  let orgData : Rec := [("attioId", getFD values "record_id")]
  let orgData :=
    if getF values "name" ≠ some .null then
      setF orgData "name" (getFD values "name")
    else orgData
  let orgData :=
    if getF values "slug" ≠ some .null then
      setF orgData "slug" (getFD values "slug")
    else orgData
  if getF values "avatar_url" ≠ some .null then
    setF orgData "logo" (getFD values "avatar_url")
  else orgData

/-- The slug candidate for a newly created organization (`slugToUse` in
`src/unnamed/part_003` line 91):
`values.slug || generateSlug(String(values.name || "org")) || ""`. -/
def orgSlugToUse (values : Rec) : Val :=
  jsOr (jsOr (getFD values "slug")
      (.str (generateSlug (jsString (jsOr (getFD values "name") (.str "org"))))))
    (.str "")

/-- The row data for a newly created organization
(`src/unnamed/part_003` lines 97-107): the patch plus the generated id,
the uniqueness-checked slug and timestamps. -/
def orgCreatedData (values : Rec) (db : DB) : Rec :=
  mergeRec (orgDataOf values)
    [("id", .str (ctxGenerateId "organization")),
     ("slug",
       if (dbFindOne db "organization"
             [("slug", orgSlugToUse values)]).isSome then
         .str (generateUniqueSlug
           (jsString (jsOr (getFD values "name") (.str "org"))))
       else orgSlugToUse values),
     ("createdAt", nowVal), ("updatedAt", nowVal)]

/-- Organization adapter inbound transform (`organizationAdapter.fromAttio`
in `src/unnamed/part_003`): deletes remove all memberships and then the
organization row; creates insert the organization (with slug-uniqueness
handling) and reconcile memberships; updates patch the existing
organization and reconcile memberships, or hand back a creation patch
for the default `onMissing` flow when no organization correlates to the
external id. -/
def organizationFromAttio (event : SyncEvent) (values : Rec) (db : DB) :
    FromAttioResult :=
  let rid := getFD values "record_id"
  if event = .delete then
    match dbFindOne db "organization" [("attioId", rid)] with
    | some org =>
        let oid := getFD org "id"
        let db1 := dbDelete db "member" [("organizationId", oid)]
        let db2 := dbDelete db1 "organization" [("id", oid)]
        .ok none db2
          [.delete "member" [("organizationId", oid)],
           .delete "organization" [("id", oid)]]
    | none => .ok none db []
  else
    if event = .create then
      let createdData := orgCreatedData values db
      let db1 := dbCreate db "organization" createdData
      let orgIdVal := getFD createdData "id"
      let synced := syncOrganizationMembers orgIdVal values db1
      .ok (some [("id", orgIdVal), ("attioId", rid)]) synced.1
        ([.create "organization" createdData] ++ synced.2)
    else
      match dbFindOne db "organization" [("attioId", rid)] with
      | none =>
          .ok (some (mergeRec (orgDataOf values)
            [("id", .str (ctxGenerateId "organization")),
             ("name", jsOr (getFD values "name") (.str "Unnamed Organization")),
             ("slug", orgSlugToUse values),
             ("createdAt", nowVal), ("updatedAt", nowVal)])) db []
      | some existingOrg =>
          let oid := getFD existingOrg "id"
          let patch := mergeRec (orgDataOf values) [("updatedAt", nowVal)]
          let db1 := (dbUpdate db "organization" [("id", oid)] patch).1
          let synced := syncOrganizationMembers oid values db1
          .ok (some [("id", oid), ("attioId", rid)]) synced.1
            ([.update "organization" [("id", oid)] patch] ++ synced.2)

/-- Built-in user adapter (`src/src/adapters/user.ts`). -/
def userAdapter : ModelAdapter :=
  { betterAuthModel := "user"
    attioObject := "users"
    toAttio := userToAttio
    fromAttio := userFromAttio
    onMissing := some .create
    syncDeletions := some true }

/-- Built-in organization adapter (`src/unnamed/part_002` /
`src/unnamed/part_003`). -/
def organizationAdapter : ModelAdapter :=
  { betterAuthModel := "organization"
    attioObject := "workspaces"
    toAttio := organizationToAttio
    fromAttio := organizationFromAttio
    onMissing := some .create
    syncDeletions := some true }

/-- Built-in adapter list (`defaultAdapters` in `src/unnamed/part_005`). -/
def defaultAdapters : List ModelAdapter := [userAdapter, organizationAdapter]

/-- Registry construction (`getAdapters` in `src/src/adapters/helpers.ts`):
keep every built-in whose local model is not claimed by a caller-supplied
adapter, then append the caller-supplied adapters. -/
def getAdapters (userAdapters : Option (List ModelAdapter)) :
    List ModelAdapter :=
  let us := userAdapters.getD []
  let userAdapterModels := us.map (·.betterAuthModel)
  defaultAdapters.filter
    (fun d => !(userAdapterModels.contains d.betterAuthModel)) ++ us

/-- Registry lookup by local model (`getAdapterByModel` in
`src/src/adapters/helpers.ts`): first adapter with that
`betterAuthModel`. -/
def getAdapterByModel (adapters : List ModelAdapter) (model : String) :
    Option ModelAdapter :=
  adapters.find? (fun a => a.betterAuthModel == model)

/-- The `object` field of an inbound webhook event. -/
structure AttioObjectRef where
  api_slug : String

/-- The `record` field of an inbound webhook event: the external record
id and the raw value envelopes keyed by external field name. -/
structure AttioRecordData where
  record_id : String
  values : List (String × FieldData)

/-- One inbound webhook event; `record` and `object` may be absent. -/
structure AttioEvent where
  event_type : String
  record : Option AttioRecordData
  object : Option AttioObjectRef

/-- Adapter resolution of the inbound reconciler (`src/src/core.ts`
lines 113-119): first adapter whose `attioObject` equals the event
object's `api_slug`. -/
def findAdapter (adapters : List ModelAdapter) (slug : String) :
    Option ModelAdapter :=
  adapters.find? (fun a => a.attioObject == slug)

/-- External event type mapping (`src/src/core.ts` lines 134-143);
unknown types yield `none` to be skipped. -/
def toSyncEvent (eventType : String) : Option SyncEvent :=
  if eventType = "record.created" then some .create
  else if eventType = "record.updated" then some .update
  else if eventType = "record.deleted" then some .delete
  else none

/-- Envelope flattening of the inbound reconciler (`src/src/core.ts`
lines 126-131): the external record id under `record_id`, then every
field run through the Value Extractor. -/
def extractEventValues (record : AttioRecordData) : Rec :=
  record.values.foldl (fun acc p => setF acc p.1 (extractAttioValue p.2))
    [("record_id", .str record.record_id)]

/-- Observable outcome of a reconciliation step: the database, the
writes performed, and the outbound dispatches (invocations of
`sendWebhookEvent`) it re-emitted, all in execution order. -/
structure Trace where
  db : DB
  ops : List WriteOp
  outs : List OutEvent
deriving DecidableEq

/-- Default persistence policy of the inbound reconciler
(`src/src/core.ts` lines 157-235), applied when the adapter's inbound
transform returned a non-null patch `result`. -/
def defaultFlow (adapter : ModelAdapter) (syncEvent : SyncEvent)
    (attioId : String) (result : Rec) (db : DB) : Trace :=
  match syncEvent with
  | .delete =>
    if adapter.syncDeletions ≠ some false then
      match dbFindOne db adapter.betterAuthModel [("attioId", .str attioId)] with
      | some existing =>
          ⟨dbDelete db adapter.betterAuthModel [("id", getFD existing "id")],
           [.delete adapter.betterAuthModel [("id", getFD existing "id")]], []⟩
      | none => ⟨db, [], []⟩
    else ⟨db, [], []⟩
  | _ =>
    match dbFindOne db adapter.betterAuthModel [("attioId", .str attioId)] with
    | some existing =>
        let updateData :=
          result.filter (fun p => !(p.1 == "id") && !(p.1 == "createdAt"))
        if updateData ≠ [] then
          let u := dbUpdate db adapter.betterAuthModel
            [("id", getFD existing "id")] updateData
          ⟨u.1,
           [.update adapter.betterAuthModel [("id", getFD existing "id")] updateData],
           match u.2 with
           | some updated => [(.update, updated)]
           | none => []⟩
        else ⟨db, [], []⟩
    | none =>
        if syncEvent = .create ∨ adapter.onMissing.getD .create = .create then
          ⟨dbCreate db adapter.betterAuthModel result,
           [.create adapter.betterAuthModel result],
           [(.create, result)]⟩
        else if adapter.onMissing.getD .create = .delete then
          ⟨db, [], [(.delete, [("attioId", .str attioId)])]⟩
        else ⟨db, [], []⟩

/-- Outcome of one inbound event: a trace plus whether an exception was
caught (and logged) for it. -/
structure EventResult where
  db : DB
  ops : List WriteOp
  outs : List OutEvent
  errored : Bool

/-- Processing of a single inbound event (`src/src/core.ts` lines
104-238): skip when `record`, `object`, the adapter or the event type
is missing; otherwise extract values, run the adapter's inbound
transform, and — unless it returned `null` or threw — apply the default
persistence policy. -/
def processEvent (adapters : List ModelAdapter) (ev : AttioEvent)
    (db : DB) : EventResult :=
  match ev.record, ev.object with
  | some record, some obj =>
    match findAdapter adapters obj.api_slug with
    | some adapter =>
      match toSyncEvent ev.event_type with
      | some syncEvent =>
        match adapter.fromAttio syncEvent (extractEventValues record) db with
        | .err db' ops => ⟨db', ops, [], true⟩
        | .ok none db' ops => ⟨db', ops, [], false⟩
        | .ok (some result) db' ops =>
            let f := defaultFlow adapter syncEvent record.record_id result db'
            ⟨f.db, ops ++ f.ops, f.outs, false⟩
      | none => ⟨db, [], [], false⟩
    | none => ⟨db, [], [], false⟩
  | _, _ => ⟨db, [], [], false⟩

/-- Sequential processing of an inbound batch: each event runs on the
database the previous one left behind; a caught exception does not stop
the loop. -/
def runEvents (adapters : List ModelAdapter) :
    List AttioEvent → DB → Trace
  | [], db => ⟨db, [], []⟩
  | ev :: rest, db =>
    let r := processEvent adapters ev db
    let t := runEvents adapters rest r.db
    ⟨t.db, r.ops ++ t.ops, r.outs ++ t.outs⟩

/-- The webhook endpoint's batch handler after the secret check
(`src/src/core.ts` lines 104-241): attempt every event, then always
acknowledge with `{ success: true }`. -/
def attioWebhook (adapters : List ModelAdapter) (events : List AttioEvent)
    (db : DB) : Trace × Bool :=
  (runEvents adapters events db, true)

/-- Request body of the inbound webhook endpoint. -/
structure WebhookBody where
  webhook_id : String
  events : List AttioEvent
  secret : String

/-- The full webhook endpoint (`src/src/core.ts` lines 90-243): reject
the whole batch on a secret mismatch, otherwise run the batch handler
over `opts.adapters ?? []`. -/
def attioWebhookEndpoint (optsSecret : Option String)
    (optsAdapters : Option (List ModelAdapter)) (ctxSecret : String)
    (body : WebhookBody) (db : DB) : Except ApiError (Trace × Bool) :=
  match validateSecret optsSecret ctxSecret body.secret with
  | some e => .error e
  | none => .ok (attioWebhook (optsAdapters.getD []) body.events db)

/-- Modelled from the spec: the field-wise diff between the adapter's
returned patch and the existing record, excluding the immutable fields
`id` and `createdAt` — the quantity the spec says decides whether an
inbound update writes.  Defined from the spec's words, to be compared
with what `defaultFlow` actually tests. -/
def specFieldwiseDiff (patch existing : Rec) : Rec :=
  patch.filter (fun p =>
    !(p.1 == "id") && !(p.1 == "createdAt") && !(getF existing p.1 == some p.2))

/-- The database an inbound transform leaves behind (also after a
caught exception). -/
def FromAttioResult.dbOf : FromAttioResult → DB
  | .ok _ db _ => db
  | .err db _ => db

/-- The writes an inbound transform performed, in execution order. -/
def FromAttioResult.opsOf : FromAttioResult → List WriteOp
  | .ok _ _ ops => ops
  | .err _ ops => ops

/-- The patch an inbound transform returned (`none` when it handled
persistence itself or threw). -/
def FromAttioResult.patchOf : FromAttioResult → Option Rec
  | .ok patch _ _ => patch
  | .err _ _ => none

/-- Well-formedness of membership rows: every `member` row carries a
`userId` field.  Rows created by the host store always do; the
membership reconciler's `where` clauses identify members by that
field. -/
def memberWF (db : DB) : Prop :=
  ∀ e ∈ db, e.1 = "member" → (getF e.2 "userId").isSome = true

/-- Convergence of the membership set after an inbound organization
event, phrased against the pre-event database `db`: the member user
ids for the organization equal exactly the resolved reference set;
members outside the target set are deleted while members inside it
keep their exact row; newly referenced users get a membership row with
default role `member`; and no user row is created or destroyed. -/
def membershipConverged (db dbAfter : DB) (orgId : Val) (values : Rec) :
    Prop :=
  (∀ v, v ∈ memberUserIds dbAfter orgId ↔
     v ∈ resolveMemberUserIds db (orgUserRefs values)) ∧
  (∀ r : Rec, ("member", r) ∈ db →
     rowMatches r [("organizationId", orgId)] = true →
     (getFD r "userId" ∉ resolveMemberUserIds db (orgUserRefs values) →
        ("member", r) ∉ dbAfter) ∧
     (getFD r "userId" ∈ resolveMemberUserIds db (orgUserRefs values) →
        ("member", r) ∈ dbAfter)) ∧
  (∀ v ∈ resolveMemberUserIds db (orgUserRefs values),
     v ∉ memberUserIds db orgId →
     ("member", mkMemberRow orgId v) ∈ dbAfter ∧
     getF (mkMemberRow orgId v) "role" = some (.str "member")) ∧
  (∀ r : Rec, ("user", r) ∈ dbAfter ↔ ("user", r) ∈ db)

/-- Positivity of the structural size of a value. -/
theorem valSize_pos : ∀ v : Val, 0 < valSize v := by
  intro v
  cases v <;> simp [valSize]

/-- A value is never equal to the one-element array wrapping it. -/
theorem val_ne_arr_single (v : Val) : v ≠ .arr [v] := by
  intro h
  have hs := congrArg valSize h
  simp [valSize, valListSize] at hs

/-- C2: for every field envelope, `extractAttioValue` returns `null`
when the input is absent/not a collection or an empty collection; the
bare per-element extracted value (not a one-element array) when the
collection has exactly one element; and the ordered array of the
per-element extracted values when it has two or more elements. -/
theorem extractAttioValue_cardinality :
    extractAttioValue .notCollection = .null ∧
    extractAttioValue (.collection []) = .null ∧
    (∀ item : AttioItem,
       extractAttioValue (.collection [item]) = extractSingleValue item ∧
       extractAttioValue (.collection [item]) ≠
         .arr [extractSingleValue item]) ∧
    (∀ (x y : AttioItem) (zs : List AttioItem),
       extractAttioValue (.collection (x :: y :: zs)) =
         .arr ((x :: y :: zs).map extractSingleValue)) := by
  refine ⟨rfl, rfl, fun item => ⟨rfl, val_ne_arr_single _⟩, fun x y zs => rfl⟩

/-- C10: when neither the plugin option secret nor the auth context
secret is configured (both falsy), `validateSecret` returns `null` for
every request — so the secret-guarded webhook endpoint accepts any
caller-supplied secret — and an UNAUTHORIZED rejection is possible only
when the effective secret is a non-empty string and the body's secret
differs from it. -/
theorem validateSecret_unconfigured_accepts :
    (∀ bodySecret,
       validateSecret none "" bodySecret = none ∧
       validateSecret (some "") "" bodySecret = none) ∧
    (∀ (optsAdapters : Option (List ModelAdapter)) (body : WebhookBody)
       (db : DB),
       attioWebhookEndpoint none optsAdapters "" body db =
         .ok (attioWebhook (optsAdapters.getD []) body.events db)) ∧
    (∀ optsSecret ctxSecret bodySecret e,
       validateSecret optsSecret ctxSecret bodySecret = some e →
       e = .unauthorized ∧ effectiveSecret optsSecret ctxSecret ≠ "" ∧
       bodySecret ≠ effectiveSecret optsSecret ctxSecret) := by
  refine ⟨fun b => ⟨rfl, rfl⟩, fun oa body db => ?_, fun o c b e h => ?_⟩
  · simp [attioWebhookEndpoint, validateSecret, effectiveSecret]
  · by_cases hc : effectiveSecret o c ≠ "" ∧ b ≠ effectiveSecret o c
    · simp only [validateSecret, if_pos hc, Option.some.injEq] at h
      exact ⟨h.symm, hc.1, hc.2⟩
    · rw [validateSecret, if_neg hc] at h
      exact Option.noConfusion h

/-- Closed instance discharging the hypothesis of the rejection half of
the C10 theorem at a concrete configured secret. -/
theorem validateSecret_unconfigured_accepts_witness :
    ApiError.unauthorized = .unauthorized ∧
    effectiveSecret (some "shh") "" ≠ "" ∧
    "wrong" ≠ effectiveSecret (some "shh") "" :=
  validateSecret_unconfigured_accepts.2.2 (some "shh") "" "wrong"
    .unauthorized (by decide)

/-- C9: for every outbound dispatch, a `null` result of the adapter's
outbound transform suppresses delivery entirely — the integration
endpoint list is not fetched, no POST is attempted and the database is
untouched — while a non-null transformed patch is POSTed to every
registered integration endpoint, still without touching the database. -/
theorem sendWebhookEvent_null_suppresses :
    ∀ (event : SyncEvent) (data : Rec) (a : ModelAdapter) (db : DB),
      (a.toAttio event data db = none →
         sendWebhookEvent event data a db = ⟨db, false, []⟩) ∧
      (∀ patch, a.toAttio event data db = some patch →
         (sendWebhookEvent event data a db).db = db ∧
         (sendWebhookEvent event data a db).fetchedIntegrations = true ∧
         (sendWebhookEvent event data a db).posts =
           (dbFindMany db "attioIntegration" []).map
             (fun w => ⟨getFD w "webhookUrl", event, patch⟩)) := by
  intro event data a db
  constructor
  · intro h
    simp [sendWebhookEvent, h]
  · intro patch h
    simp [sendWebhookEvent, h]

/-- Adapter whose outbound transform always opts out; used to witness
the suppression half of the C9 theorem. -/
def nullToAttioAdapter : ModelAdapter :=
  { betterAuthModel := "user"
    attioObject := "users"
    toAttio := fun _ _ _ => none
    fromAttio := fun _ _ db => .ok none db [] }

/-- Closed instance discharging the hypothesis of the C9 theorem at a
concrete opting-out adapter. -/
theorem sendWebhookEvent_null_suppresses_witness :
    sendWebhookEvent .update [] nullToAttioAdapter
        [("attioIntegration", [("webhookUrl", .str "https://e.example")])] =
      ⟨[("attioIntegration", [("webhookUrl", .str "https://e.example")])],
       false, []⟩ :=
  (sendWebhookEvent_null_suppresses .update [] nullToAttioAdapter
    [("attioIntegration", [("webhookUrl", .str "https://e.example")])]).1 rfl

/-- Auxiliary: filtering by a predicate implied by the search predicate
does not change the result of `find?`. -/
theorem find?_filter_of_imp {α : Type} (l : List α) (p keep : α → Bool)
    (h : ∀ x ∈ l, p x = true → keep x = true) :
    (l.filter keep).find? p = l.find? p := by
  induction l with
  | nil => rfl
  | cons a l ih =>
    by_cases hk : keep a = true
    · rw [List.filter_cons_of_pos hk]
      cases hp : p a
      · rw [List.find?_cons_of_neg _ (by simp [hp]),
          List.find?_cons_of_neg _ (by simp [hp])]
        exact ih (fun x hx => h x (List.mem_cons_of_mem _ hx))
      · rw [List.find?_cons_of_pos _ hp, List.find?_cons_of_pos _ hp]
    · rw [List.filter_cons_of_neg (by simpa using hk)]
      have hp : p a = false := by
        cases hpa : p a
        · rfl
        · exact absurd (h a (List.mem_cons_self a l) hpa) hk
      rw [List.find?_cons_of_neg _ (by simp [hp])]
      exact ih (fun x hx => h x (List.mem_cons_of_mem _ hx))

/-- C8: the registry built by `getAdapters` keeps every built-in
adapter except those whose local model is claimed by a caller-supplied
adapter, which are replaced entirely by the caller's adapters with no
field-level merge; `getAdapterByModel` on the result returns the
caller's adapter for any overridden model and the built-in lookup
otherwise. -/
theorem getAdapters_override_semantics :
    ∀ (us : List ModelAdapter),
      (∀ d ∈ defaultAdapters,
         (∀ u ∈ us, u.betterAuthModel ≠ d.betterAuthModel) →
         d ∈ getAdapters (some us)) ∧
      (∀ a ∈ getAdapters (some us),
         a ∈ us ∨ (a ∈ defaultAdapters ∧
           ∀ u ∈ us, u.betterAuthModel ≠ a.betterAuthModel)) ∧
      (∀ m, (∃ u ∈ us, u.betterAuthModel = m) →
         getAdapterByModel (getAdapters (some us)) m =
           us.find? (fun u => u.betterAuthModel == m)) ∧
      (∀ m, (∀ u ∈ us, u.betterAuthModel ≠ m) →
         getAdapterByModel (getAdapters (some us)) m =
           getAdapterByModel defaultAdapters m) := by
  intro us
  refine ⟨?_, ?_, ?_, ?_⟩
  · intro d hd hno
    simp only [getAdapters, Option.getD_some, List.mem_append, List.mem_filter]
    refine Or.inl ⟨hd, ?_⟩
    simp only [Bool.not_eq_true', List.elem_eq_mem, decide_eq_false_iff_not,
      List.mem_map, not_exists, not_and]
    intro u hu
    exact hno u hu
  · intro a ha
    simp only [getAdapters, Option.getD_some, List.mem_append, List.mem_filter] at ha
    rcases ha with ⟨hd, hkeep⟩ | hu
    · refine Or.inr ⟨hd, ?_⟩
      intro u hu
      simp only [Bool.not_eq_true', List.elem_eq_mem, decide_eq_false_iff_not,
        List.mem_map, not_exists, not_and] at hkeep
      exact hkeep u hu
    · exact Or.inl hu
  · intro m hm
    obtain ⟨u, hu, hum⟩ := hm
    simp only [getAdapterByModel, getAdapters, Option.getD_some, List.find?_append]
    have hnone : (defaultAdapters.filter
        (fun d => !((us.map (·.betterAuthModel)).contains d.betterAuthModel))).find?
          (fun a => a.betterAuthModel == m) = none := by
      rw [List.find?_eq_none]
      intro d hd
      simp only [List.mem_filter, Bool.not_eq_true', List.elem_eq_mem,
        decide_eq_false_iff_not, List.mem_map] at hd
      simp only [beq_iff_eq]
      intro hdm
      exact hd.2 ⟨u, hu, by rw [hum, hdm]⟩
    rw [hnone, Option.none_or]
  · intro m hm
    simp only [getAdapterByModel, getAdapters, Option.getD_some, List.find?_append]
    have husnone : us.find? (fun a => a.betterAuthModel == m) = none := by
      rw [List.find?_eq_none]
      intro u hu
      simp only [beq_iff_eq]
      exact hm u hu
    rw [husnone]
    have hfilter : (defaultAdapters.filter
        (fun d => !((us.map (·.betterAuthModel)).contains d.betterAuthModel))).find?
          (fun a => a.betterAuthModel == m) =
        defaultAdapters.find? (fun a => a.betterAuthModel == m) := by
      apply find?_filter_of_imp
      intro d _ hdm
      simp only [beq_iff_eq] at hdm
      simp only [Bool.not_eq_true', List.elem_eq_mem, decide_eq_false_iff_not,
        List.mem_map, not_exists, not_and]
      intro u hu
      rw [hdm]
      exact hm u hu
    rw [hfilter]
    cases hfind : defaultAdapters.find? (fun a => a.betterAuthModel == m) <;>
      simp [hfind]

/-- Caller-supplied override of the built-in user adapter; used to
witness the C8 theorem. -/
def customUserAdapter : ModelAdapter :=
  { betterAuthModel := "user"
    attioObject := "custom_users"
    toAttio := fun _ _ _ => none
    fromAttio := fun _ _ db => .ok none db [] }

/-- Closed instance discharging the hypotheses of the C8 theorem at a
concrete override of the `user` model. -/
theorem getAdapters_override_semantics_witness :
    getAdapterByModel (getAdapters (some [customUserAdapter])) "user" =
      [customUserAdapter].find? (fun u => u.betterAuthModel == "user") ∧
    getAdapterByModel (getAdapters (some [customUserAdapter])) "organization" =
      getAdapterByModel defaultAdapters "organization" :=
  ⟨(getAdapters_override_semantics [customUserAdapter]).2.2.1 "user"
      ⟨customUserAdapter, List.mem_singleton.mpr rfl, rfl⟩,
   (getAdapters_override_semantics [customUserAdapter]).2.2.2 "organization"
      (by intro u hu; rw [List.mem_singleton.mp hu]; decide)⟩

/-- C5: for an inbound update whose external id has no local
counterpart and whose adapter returned a non-null patch, the default
policy creates the record and emits an outbound create when `onMissing`
is `create` or unset, emits an outbound delete referencing only the
external id (with no local write) when it is `delete`, and does nothing
when it is `ignore`. -/
theorem defaultFlow_onMissing_policies :
    ∀ (a : ModelAdapter) (attioId : String) (result : Rec) (db : DB),
      dbFindOne db a.betterAuthModel [("attioId", .str attioId)] = none →
      ((a.onMissing = none ∨ a.onMissing = some .create) →
         defaultFlow a .update attioId result db =
           ⟨dbCreate db a.betterAuthModel result,
            [.create a.betterAuthModel result], [(.create, result)]⟩) ∧
      (a.onMissing = some .delete →
         defaultFlow a .update attioId result db =
           ⟨db, [], [(.delete, [("attioId", .str attioId)])]⟩) ∧
      (a.onMissing = some .ignore →
         defaultFlow a .update attioId result db = ⟨db, [], []⟩) := by
  intro a attioId result db hfind
  refine ⟨?_, ?_, ?_⟩
  · rintro (h | h) <;> simp [defaultFlow, hfind, h]
  · intro h
    simp [defaultFlow, hfind, h]
  · intro h
    simp [defaultFlow, hfind, h]

/-- Adapter with the orphan policy left unset; its effective policy is
`create`. -/
def unsetOnMissingAdapter : ModelAdapter :=
  { betterAuthModel := "user"
    attioObject := "users"
    toAttio := fun _ _ _ => none
    fromAttio := fun _ _ db => .ok none db [] }

/-- Adapter with orphan policy `delete`. -/
def deleteOnMissingAdapter : ModelAdapter :=
  { unsetOnMissingAdapter with onMissing := some .delete }

/-- Adapter with orphan policy `ignore`. -/
def ignoreOnMissingAdapter : ModelAdapter :=
  { unsetOnMissingAdapter with onMissing := some .ignore }

/-- Closed instance discharging the hypotheses of the C5 theorem for
all three orphan policies at a concrete unknown external id. -/
theorem defaultFlow_onMissing_policies_witness :
    defaultFlow unsetOnMissingAdapter .update "a9" [("name", .str "n")] [] =
      ⟨dbCreate [] "user" [("name", .str "n")],
       [.create "user" [("name", .str "n")]],
       [(.create, [("name", .str "n")])]⟩ ∧
    defaultFlow deleteOnMissingAdapter .update "a9" [("name", .str "n")] [] =
      ⟨[], [], [(.delete, [("attioId", .str "a9")])]⟩ ∧
    defaultFlow ignoreOnMissingAdapter .update "a9" [("name", .str "n")] [] =
      ⟨[], [], []⟩ :=
  ⟨(defaultFlow_onMissing_policies unsetOnMissingAdapter "a9"
      [("name", .str "n")] [] rfl).1 (Or.inl rfl),
   (defaultFlow_onMissing_policies deleteOnMissingAdapter "a9"
      [("name", .str "n")] [] rfl).2.1 rfl,
   (defaultFlow_onMissing_policies ignoreOnMissingAdapter "a9"
      [("name", .str "n")] [] rfl).2.2 rfl⟩

/-- C6: for an inbound delete the adapter did not fully handle itself,
`syncDeletions = false` suppresses any local write; otherwise the
record correlated to the external id is looked up and, when found,
deleted (rows not matching the found record's id survive), and nothing
happens when no record correlates.  No outbound event is re-emitted
either way. -/
theorem defaultFlow_syncDeletions_gate :
    ∀ (a : ModelAdapter) (attioId : String) (result : Rec) (db : DB),
      (a.syncDeletions = some false →
         defaultFlow a .delete attioId result db = ⟨db, [], []⟩) ∧
      (a.syncDeletions ≠ some false →
         (dbFindOne db a.betterAuthModel [("attioId", .str attioId)] = none →
            defaultFlow a .delete attioId result db = ⟨db, [], []⟩) ∧
         (∀ ex exId,
            dbFindOne db a.betterAuthModel [("attioId", .str attioId)] = some ex →
            getF ex "id" = some exId →
            (a.betterAuthModel, ex) ∉ (defaultFlow a .delete attioId result db).db ∧
            (∀ row ∈ db,
               (row.1 = a.betterAuthModel → getF row.2 "id" ≠ some exId) →
               row ∈ (defaultFlow a .delete attioId result db).db) ∧
            (defaultFlow a .delete attioId result db).outs = [])) := by
  intro a attioId result db
  constructor
  · intro h
    simp [defaultFlow, h]
  · intro h
    constructor
    · intro hfind
      simp [defaultFlow, h, hfind]
    · intro ex exId hfind hid
      have hfd : getFD ex "id" = exId := by simp [getFD, hid]
      refine ⟨?_, ?_, ?_⟩
      · intro hmem
        simp only [defaultFlow, if_pos h, hfind, hfd, dbDelete, List.mem_filter] at hmem
        have := hmem.2
        simp [rowMatches, hid] at this
      · intro row hrow hkeep
        simp only [defaultFlow, if_pos h, hfind, hfd, dbDelete, List.mem_filter]
        refine ⟨hrow, ?_⟩
        by_cases hmm :
          (row.1 == a.betterAuthModel && rowMatches row.2 [("id", exId)]) = true
        · exfalso
          simp only [Bool.and_eq_true, beq_iff_eq, rowMatches, List.all_cons,
            List.all_nil, Bool.and_true] at hmm
          exact (hkeep hmm.1) (by simpa using hmm.2)
        · simp only [Bool.not_eq_true] at hmm
          simp [hmm]
      · simp [defaultFlow, if_pos h, hfind]

/-- Closed instance discharging the hypotheses of the C6 theorem at a
concrete correlated record. -/
theorem defaultFlow_syncDeletions_gate_witness :
    nullToAttioAdapter.syncDeletions ≠ some false ∧
    ("user", [("id", .str "u1"), ("attioId", .str "a1")]) ∉
      (defaultFlow nullToAttioAdapter .delete "a1" []
        [("user", [("id", .str "u1"), ("attioId", .str "a1")])]).db :=
  ⟨by decide,
   ((defaultFlow_syncDeletions_gate nullToAttioAdapter "a1" []
       [("user", [("id", .str "u1"), ("attioId", .str "a1")])]).2 (by decide)).2
     [("id", .str "u1"), ("attioId", .str "a1")] (.str "u1") (by decide)
     (by decide) |>.1⟩

/-- C4: the batch endpoint acknowledges success once all events have
been attempted, no matter how many events failed; and an event whose
processing throws (leaving the database untouched) is simply skipped —
the events before and after it are applied exactly as if it were not in
the batch. -/
theorem attioWebhook_batch_isolation :
    ∀ (adapters : List ModelAdapter) (db : DB),
      (∀ events, (attioWebhook adapters events db).2 = true) ∧
      (∀ (ev : AttioEvent) (pre post : List AttioEvent),
         (∀ d, processEvent adapters ev d = ⟨d, [], [], true⟩) →
         attioWebhook adapters (pre ++ ev :: post) db =
           attioWebhook adapters (pre ++ post) db) := by
  intro adapters db
  constructor
  · intro events
    rfl
  · intro ev pre post hskip
    unfold attioWebhook
    rw [Prod.mk.injEq]
    refine ⟨?_, rfl⟩
    induction pre generalizing db with
    | nil =>
      simp only [List.nil_append, runEvents, hskip db]
    | cons e pre ih =>
      simp only [List.cons_append, runEvents, List.append_eq, ih]

/-- Adapter whose inbound transform always throws; used to witness the
C4 theorem. -/
def throwingAdapter : ModelAdapter :=
  { betterAuthModel := "user"
    attioObject := "users"
    toAttio := fun _ _ _ => none
    fromAttio := fun _ _ db => .err db [] }

/-- An inbound event routed to the throwing adapter. -/
def crashEvent : AttioEvent :=
  { event_type := "record.created"
    record := some ⟨"r2", []⟩
    object := some ⟨"users"⟩ }

/-- An inbound event with an unrecognized type (structurally skipped). -/
def skipEvent : AttioEvent :=
  { event_type := "record.unknown"
    record := some ⟨"r1", []⟩
    object := some ⟨"users"⟩ }

/-- Closed instance discharging the hypothesis of the C4 theorem on a
three-event batch whose middle event throws. -/
theorem attioWebhook_batch_isolation_witness :
    attioWebhook [throwingAdapter] ([skipEvent] ++ crashEvent :: [skipEvent]) [] =
      attioWebhook [throwingAdapter] ([skipEvent] ++ [skipEvent]) [] :=
  (attioWebhook_batch_isolation [throwingAdapter] []).2 crashEvent
    [skipEvent] [skipEvent] (fun d => rfl)

/-- The existing local record of the C1 counterexample. -/
def c1Existing : Rec := [("id", .str "u1"), ("attioId", .str "a1"), ("name", .str "x")]

/-- The C1 counterexample's database: one user correlated to external
id `a1`. -/
def c1Db : DB := [("user", c1Existing)]

/-- The C1 counterexample's inbound patch, whose values exactly match
the existing record. -/
def c1Patch : Rec := [("name", .str "x")]

/-- C1 counterexample: an inbound update whose patch exactly matches
the existing record — the spec's field-wise diff (excluding `id` and
`createdAt`) is empty — still performs a write and re-emits an outbound
update event: the reconciler never compares the patch's values against
the existing record, it only strips `id` and `createdAt` from the
patch. -/
theorem defaultFlow_noop_update_counterexample :
    specFieldwiseDiff c1Patch c1Existing = [] ∧
    dbFindOne c1Db "user" [("attioId", .str "a1")] = some c1Existing ∧
    (defaultFlow nullToAttioAdapter .update "a1" c1Patch c1Db).ops =
      [.update "user" [("id", .str "u1")] c1Patch] ∧
    (defaultFlow nullToAttioAdapter .update "a1" c1Patch c1Db).outs =
      [(.update, c1Existing)] := by
  decide

/-- C1 (amended): for an inbound create/update whose external id
matches an existing record, the reconciler strips only the immutable
fields `id` and `createdAt` from the adapter's returned patch — no
field-wise value diff against the existing record is computed.  When
the stripped patch is empty, zero writes happen and zero outbound
events are re-emitted; when it is non-empty, the update is applied and
an outbound update event carrying the updated (merged) record is
re-emitted, even if the patch's values equal the existing record's. -/
theorem defaultFlow_update_strips_immutables :
    ∀ (a : ModelAdapter) (se : SyncEvent) (attioId : String) (result : Rec)
      (db : DB) (ex : Rec),
      se ≠ .delete →
      dbFindOne db a.betterAuthModel [("attioId", .str attioId)] = some ex →
      dbFindOne db a.betterAuthModel [("id", getFD ex "id")] = some ex →
      (result.filter (fun p => !(p.1 == "id") && !(p.1 == "createdAt")) = [] →
         defaultFlow a se attioId result db = ⟨db, [], []⟩) ∧
      (result.filter (fun p => !(p.1 == "id") && !(p.1 == "createdAt")) ≠ [] →
         (defaultFlow a se attioId result db).ops =
           [.update a.betterAuthModel [("id", getFD ex "id")]
             (result.filter (fun p => !(p.1 == "id") && !(p.1 == "createdAt")))] ∧
         (defaultFlow a se attioId result db).outs =
           [(.update, mergeRec ex
             (result.filter (fun p => !(p.1 == "id") && !(p.1 == "createdAt"))))] ∧
         (∀ row ∈ db,
            (row.1 = a.betterAuthModel →
               rowMatches row.2 [("id", getFD ex "id")] = false) →
            row ∈ (defaultFlow a se attioId result db).db)) := by
  intro a se attioId result db ex hse hattio hbyid
  cases se with
  | delete => exact absurd rfl hse
  | create =>
    constructor
    · intro hempty
      simp [defaultFlow, hattio, hempty]
    · intro hne
      refine ⟨?_, ?_, ?_⟩
      · simp [defaultFlow, hattio, hne]
      · simp [defaultFlow, hattio, hne, dbUpdate, hbyid]
      · intro row hrow hkeep
        simp only [defaultFlow, hattio, if_pos hne, dbUpdate]
        refine List.mem_map.2 ⟨row, hrow, ?_⟩
        by_cases hm : row.1 = a.betterAuthModel
        · rw [if_neg (by simp [hm, hkeep hm])]
        · rw [if_neg (by simp [hm])]
  | update =>
    constructor
    · intro hempty
      simp [defaultFlow, hattio, hempty]
    · intro hne
      refine ⟨?_, ?_, ?_⟩
      · simp [defaultFlow, hattio, hne]
      · simp [defaultFlow, hattio, hne, dbUpdate, hbyid]
      · intro row hrow hkeep
        simp only [defaultFlow, hattio, if_pos hne, dbUpdate]
        refine List.mem_map.2 ⟨row, hrow, ?_⟩
        by_cases hm : row.1 = a.betterAuthModel
        · rw [if_neg (by simp [hm, hkeep hm])]
        · rw [if_neg (by simp [hm])]

/-- Closed instance discharging the hypotheses of the amended C1
theorem on both an empty and a non-empty stripped patch. -/
theorem defaultFlow_update_strips_immutables_witness :
    defaultFlow nullToAttioAdapter .update "a1"
        [("id", .str "zz"), ("createdAt", .str "t")] c1Db = ⟨c1Db, [], []⟩ ∧
    (defaultFlow nullToAttioAdapter .update "a1"
        [("name", .str "y"), ("createdAt", .str "t")] c1Db).outs =
      [(.update, mergeRec c1Existing [("name", .str "y")])] :=
  ⟨(defaultFlow_update_strips_immutables nullToAttioAdapter .update "a1"
      [("id", .str "zz"), ("createdAt", .str "t")] c1Db c1Existing
      (by decide) (by decide) (by decide)).1 (by decide),
   ((defaultFlow_update_strips_immutables nullToAttioAdapter .update "a1"
      [("name", .str "y"), ("createdAt", .str "t")] c1Db c1Existing
      (by decide) (by decide) (by decide)).2 (by decide)).2.1⟩

/-- C7: when the organization adapter processes an inbound delete and a
local organization correlates to the event's external id, the write
trace deletes that organization's memberships strictly before the
organization row itself, and afterwards zero membership rows for that
organization id remain and no organization row with that id exists. -/
theorem organizationFromAttio_delete_ordering :
    ∀ (values : Rec) (db : DB) (org : Rec) (oid : Val),
      dbFindOne db "organization" [("attioId", getFD values "record_id")] =
        some org →
      getF org "id" = some oid →
      (organizationFromAttio .delete values db).opsOf =
        [.delete "member" [("organizationId", oid)],
         .delete "organization" [("id", oid)]] ∧
      dbFindMany (organizationFromAttio .delete values db).dbOf "member"
        [("organizationId", oid)] = [] ∧
      dbFindMany (organizationFromAttio .delete values db).dbOf "organization"
        [("id", oid)] = [] := by
  intro values db org oid hfind hid
  have hfd : getFD org "id" = oid := by simp [getFD, hid]
  have hres : organizationFromAttio .delete values db =
      .ok none
        (dbDelete (dbDelete db "member" [("organizationId", oid)])
          "organization" [("id", oid)])
        [.delete "member" [("organizationId", oid)],
         .delete "organization" [("id", oid)]] := by
    simp [organizationFromAttio, hfind, hfd]
  rw [hres]
  refine ⟨rfl, ?_, ?_⟩
  · simp only [FromAttioResult.dbOf, dbFindMany, List.map_eq_nil_iff,
      List.filter_eq_nil_iff]
    intro e he
    have hA : e ∈ dbDelete db "member" [("organizationId", oid)] :=
      (List.mem_filter.1 he).1
    have hkeep := (List.mem_filter.1 hA).2
    simp only [Bool.not_eq_true'] at hkeep
    simp [hkeep]
  · simp only [FromAttioResult.dbOf, dbFindMany, List.map_eq_nil_iff,
      List.filter_eq_nil_iff]
    intro e he
    have hkeep := (List.mem_filter.1 he).2
    simp only [Bool.not_eq_true'] at hkeep
    simp [hkeep]

/-- Database of the C7 witness: one organization correlated to external
id `ao` and one membership row for it. -/
def c7Db : DB :=
  [("organization", [("id", .str "o1"), ("attioId", .str "ao")]),
   ("member", [("organizationId", .str "o1"), ("userId", .str "u1")])]

/-- Closed instance discharging the hypotheses of the C7 theorem at a
concrete organization with one member. -/
theorem organizationFromAttio_delete_ordering_witness :
    (organizationFromAttio .delete [("record_id", .str "ao")] c7Db).opsOf =
      [.delete "member" [("organizationId", .str "o1")],
       .delete "organization" [("id", .str "o1")]] ∧
    dbFindMany (organizationFromAttio .delete [("record_id", .str "ao")] c7Db).dbOf
      "member" [("organizationId", .str "o1")] = [] ∧
    dbFindMany (organizationFromAttio .delete [("record_id", .str "ao")] c7Db).dbOf
      "organization" [("id", .str "o1")] = [] :=
  organizationFromAttio_delete_ordering [("record_id", .str "ao")] c7Db
    [("id", .str "o1"), ("attioId", .str "ao")] (.str "o1")
    (by decide) (by decide)

/-- Auxiliary: mapping with a function that fixes every element the
search predicate accepts and preserves the predicate elsewhere does not
change `find?`. -/
theorem find?_map_eq {α : Type} (l : List α) (f : α → α) (p : α → Bool)
    (hp : ∀ x ∈ l, p (f x) = p x) (hfix : ∀ x ∈ l, p x = true → f x = x) :
    (l.map f).find? p = l.find? p := by
  induction l with
  | nil => rfl
  | cons a l ih =>
    rw [List.map_cons]
    cases hpa : p a with
    | true =>
      rw [List.find?_cons_of_pos _ (by rw [hp a (List.mem_cons_self a l), hpa]),
        List.find?_cons_of_pos _ hpa, hfix a (List.mem_cons_self a l) hpa]
    | false =>
      rw [List.find?_cons_of_neg _ (by simp [hp a (List.mem_cons_self a l), hpa]),
        List.find?_cons_of_neg _ (by simp [hpa])]
      exact ih (fun x hx => hp x (List.mem_cons_of_mem _ hx))
        (fun x hx => hfix x (List.mem_cons_of_mem _ hx))

/-- Auxiliary: mapping with a function that fixes every element the
filter predicate accepts and preserves the predicate elsewhere does not
change `filter`. -/
theorem filter_map_eq {α : Type} (l : List α) (f : α → α) (p : α → Bool)
    (hp : ∀ x ∈ l, p (f x) = p x) (hfix : ∀ x ∈ l, p x = true → f x = x) :
    (l.map f).filter p = l.filter p := by
  induction l with
  | nil => rfl
  | cons a l ih =>
    rw [List.map_cons]
    have ihl := ih (fun x hx => hp x (List.mem_cons_of_mem _ hx))
      (fun x hx => hfix x (List.mem_cons_of_mem _ hx))
    cases hpa : p a with
    | true =>
      rw [List.filter_cons_of_pos (by rw [hp a (List.mem_cons_self a l), hpa]),
        List.filter_cons_of_pos hpa, hfix a (List.mem_cons_self a l) hpa, ihl]
    | false =>
      rw [List.filter_cons_of_neg (by simp [hp a (List.mem_cons_self a l), hpa]),
        List.filter_cons_of_neg (by simp [hpa]), ihl]

/-- Setting a field and reading it back yields the assigned value. -/
theorem getF_setF_self (r : Rec) (k : String) (v : Val) :
    getF (setF r k v) k = some v := by
  unfold setF
  by_cases hany : r.any (fun p => p.1 == k) = true
  · rw [if_pos hany]
    induction r with
    | nil => simp at hany
    | cons p r ih =>
      by_cases hp : (p.1 == k) = true
      · simp only [List.map_cons, if_pos hp, getF]
        rw [List.find?_cons_of_pos _ (by simp)]
        rfl
      · simp only [List.any_cons, hp, Bool.false_or] at hany
        simp only [List.map_cons, if_neg hp, getF]
        rw [List.find?_cons_of_neg _ (by simp [hp])]
        exact ih hany
  · rw [if_neg hany]
    simp only [Bool.not_eq_true, List.any_eq_false] at hany
    unfold getF
    rw [List.find?_append]
    have h1 : r.find? (fun p => p.1 == k) = none :=
      List.find?_eq_none.2 (fun x hx => by simp [hany x hx])
    rw [h1, Option.none_or, List.find?_cons_of_pos _ (by simp)]
    rfl

/-- Setting a field leaves every other field unchanged. -/
theorem getF_setF_ne (r : Rec) (k k' : String) (v : Val) (h : k' ≠ k) :
    getF (setF r k v) k' = getF r k' := by
  unfold setF
  by_cases hany : r.any (fun p => p.1 == k) = true
  · rw [if_pos hany]
    unfold getF
    rw [find?_map_eq]
    · intro x _
      by_cases hx : (x.1 == k) = true
      · rw [if_pos hx]
        have hx1 : x.1 = k := by simpa using hx
        simp [hx1]
      · rw [if_neg hx]
    · intro x _ hx
      have hx1 : x.1 = k' := by simpa using hx
      rw [if_neg (by simp [hx1, h])]
  · rw [if_neg hany]
    unfold getF
    rw [List.find?_append]
    have h2 : [(k, v)].find? (fun p => p.1 == k') = none := by
      rw [List.find?_eq_none]
      intro x hx
      rw [List.mem_singleton.1 hx]
      simp only [beq_iff_eq]
      exact fun hh => h hh.symm
    rw [h2]
    cases r.find? (fun p => p.1 == k') <;> rfl

/-- Auxiliary: the first component of a paired fold that conditionally
skips elements is the corresponding fold on first components alone. -/
theorem foldl_skip_fst {M α β : Type} (ms : List M) (c : M → Prop)
    [DecidablePred c] (f : α → M → α) (g : β → M → β) (a : α) (b : β) :
    (ms.foldl (fun acc m => if c m then acc else (f acc.1 m, g acc.2 m))
      (a, b)).1 =
      ms.foldl (fun d m => if c m then d else f d m) a := by
  induction ms generalizing a b with
  | nil => rfl
  | cons m ms ih =>
    by_cases h : c m
    · simp only [List.foldl_cons, if_pos h]
      exact ih a b
    · simp only [List.foldl_cons, if_neg h]
      exact ih (f a m) (g b m)

/-- Auxiliary: a fold of conditional filters collapses to one filter
whose predicate conjoins the per-element conditions. -/
theorem foldl_skip_filter {M α : Type} (ms : List M) (c : M → Prop)
    [DecidablePred c] (p : M → α → Bool) (l : List α) :
    ms.foldl (fun d m => if c m then d else d.filter (p m)) l =
      l.filter (fun x => ms.all (fun m => decide (c m) || p m x)) := by
  induction ms generalizing l with
  | nil => simp
  | cons m ms ih =>
    by_cases h : c m
    · simp only [List.foldl_cons, if_pos h, ih]
      apply List.filter_congr
      intro x _
      simp [h]
    · simp only [List.foldl_cons, if_neg h, ih, List.filter_filter]
      apply List.filter_congr
      intro x _
      have hd : decide (c m) = false := by simp [h]
      simp only [List.all_cons, hd, Bool.false_or]
      rw [Bool.and_comm]

/-- Auxiliary: a fold of conditional single-element appends collapses
to one append of the surviving elements. -/
theorem foldl_skip_append {U α : Type} (us : List U) (c : U → Prop)
    [DecidablePred c] (mk : U → α) (l : List α) :
    us.foldl (fun d u => if c u then d else d ++ [mk u]) l =
      l ++ (us.filter (fun u => !decide (c u))).map mk := by
  induction us generalizing l with
  | nil => simp
  | cons u us ih =>
    by_cases h : c u
    · rw [List.foldl_cons, if_pos h, ih, List.filter_cons]
      simp [h]
    · rw [List.foldl_cons, if_neg h, ih, List.filter_cons]
      simp [h, List.append_assoc]

/-- Auxiliary: membership in the reference-resolution fold, with an
arbitrary accumulator. -/
theorem mem_resolveMemberUserIds_aux (db : DB) (refs : List Val)
    (acc : List Val) (x : Val) :
    x ∈ refs.foldl (fun acc ref =>
        match dbFindOne db "user" [("attioId", ref)] with
        | some u => if getFD u "id" ∈ acc then acc else acc ++ [getFD u "id"]
        | none => acc) acc ↔
      x ∈ acc ∨ ∃ ref ∈ refs, ∃ u,
        dbFindOne db "user" [("attioId", ref)] = some u ∧
          getFD u "id" = x := by
  induction refs generalizing acc with
  | nil => simp
  | cons ref refs ih =>
    rw [List.foldl_cons, ih]
    cases hf : dbFindOne db "user" [("attioId", ref)] with
    | none =>
      simp only [hf]
      constructor
      · rintro (hx | ⟨r, hr, u', hu, hx⟩)
        · exact Or.inl hx
        · exact Or.inr ⟨r, List.mem_cons_of_mem _ hr, u', hu, hx⟩
      · rintro (hx | ⟨r, hr, u', hu, hx⟩)
        · exact Or.inl hx
        · rcases List.mem_cons.1 hr with rfl | hr'
          · rw [hf] at hu
            exact absurd hu (by simp)
          · exact Or.inr ⟨r, hr', u', hu, hx⟩
    | some u =>
      by_cases hin : getFD u "id" ∈ acc
      · simp only [hf, if_pos hin]
        constructor
        · rintro (hx | ⟨r, hr, u', hu, hx⟩)
          · exact Or.inl hx
          · exact Or.inr ⟨r, List.mem_cons_of_mem _ hr, u', hu, hx⟩
        · rintro (hx | ⟨r, hr, u', hu, hx⟩)
          · exact Or.inl hx
          · rcases List.mem_cons.1 hr with rfl | hr'
            · rw [hf] at hu
              obtain rfl : u = u' := by injection hu
              exact Or.inl (hx ▸ hin)
            · exact Or.inr ⟨r, hr', u', hu, hx⟩
      · simp only [hf, if_neg hin, List.mem_append, List.mem_singleton]
        constructor
        · rintro ((hx | hx) | ⟨r, hr, u', hu, hx⟩)
          · exact Or.inl hx
          · exact Or.inr ⟨ref, List.mem_cons_self _ _, u, hf, hx.symm⟩
          · exact Or.inr ⟨r, List.mem_cons_of_mem _ hr, u', hu, hx⟩
        · rintro (hx | ⟨r, hr, u', hu, hx⟩)
          · exact Or.inl (Or.inl hx)
          · rcases List.mem_cons.1 hr with rfl | hr'
            · rw [hf] at hu
              obtain rfl : u = u' := by injection hu
              exact Or.inl (Or.inr hx.symm)
            · exact Or.inr ⟨r, hr', u', hu, hx⟩

/-- Membership in the resolved reference set: exactly the local user
ids found by external-id correlation for some reference. -/
theorem mem_resolveMemberUserIds (db : DB) (refs : List Val) (x : Val) :
    x ∈ resolveMemberUserIds db refs ↔
      ∃ ref ∈ refs, ∃ u,
        dbFindOne db "user" [("attioId", ref)] = some u ∧
          getFD u "id" = x := by
  unfold resolveMemberUserIds
  rw [mem_resolveMemberUserIds_aux]
  simp

/-- Reference resolution only consults user lookups, so databases that
agree on those resolve identically. -/
theorem resolveMemberUserIds_congr (db db' : DB) (refs : List Val)
    (h : ∀ w : Wh, dbFindOne db "user" w = dbFindOne db' "user" w) :
    resolveMemberUserIds db refs = resolveMemberUserIds db' refs := by
  unfold resolveMemberUserIds
  suffices haux : ∀ acc : List Val,
      refs.foldl (fun acc ref =>
        match dbFindOne db "user" [("attioId", ref)] with
        | some u => if getFD u "id" ∈ acc then acc else acc ++ [getFD u "id"]
        | none => acc) acc =
      refs.foldl (fun acc ref =>
        match dbFindOne db' "user" [("attioId", ref)] with
        | some u => if getFD u "id" ∈ acc then acc else acc ++ [getFD u "id"]
        | none => acc) acc by
    exact haux []
  induction refs with
  | nil => intro acc; rfl
  | cons ref refs ih =>
    intro acc
    simp only [List.foldl_cons, h [("attioId", ref)]]
    exact ih _

/-- Updating rows of one model does not change lookups on another. -/
theorem dbFindOne_dbUpdate_ne (db : DB) (model : String) (w : Wh) (p : Rec)
    (model' : String) (w' : Wh) (h : model' ≠ model) :
    dbFindOne (dbUpdate db model w p).1 model' w' =
      dbFindOne db model' w' := by
  unfold dbUpdate dbFindOne
  rw [find?_map_eq]
  · intro x _
    by_cases hc : (x.1 == model && rowMatches x.2 w) = true
    · rw [if_pos hc]
      have hx1 : x.1 = model := by
        simp only [Bool.and_eq_true, beq_iff_eq] at hc
        exact hc.1
      have hfalse : (model == model') = false := by simp [Ne.symm h]
      simp [hx1, hfalse]
    · rw [if_neg hc]
  · intro x _ hpx
    have hx1 : x.1 = model' := by
      simp only [Bool.and_eq_true, beq_iff_eq] at hpx
      exact hpx.1
    have hneg : ¬ (x.1 == model && rowMatches x.2 w) = true := by
      intro hc
      have hx2 : x.1 = model := by
        simp only [Bool.and_eq_true, beq_iff_eq] at hc
        exact hc.1
      exact h (hx1.symm.trans hx2)
    rw [if_neg hneg]

/-- Updating rows of one model does not change a `findMany` on
another. -/
theorem dbFindMany_dbUpdate_ne (db : DB) (model : String) (w : Wh) (p : Rec)
    (model' : String) (w' : Wh) (h : model' ≠ model) :
    dbFindMany (dbUpdate db model w p).1 model' w' =
      dbFindMany db model' w' := by
  unfold dbUpdate dbFindMany
  rw [filter_map_eq]
  · intro x _
    by_cases hc : (x.1 == model && rowMatches x.2 w) = true
    · rw [if_pos hc]
      have hx1 : x.1 = model := by
        simp only [Bool.and_eq_true, beq_iff_eq] at hc
        exact hc.1
      have hfalse : (model == model') = false := by simp [Ne.symm h]
      simp [hx1, hfalse]
    · rw [if_neg hc]
  · intro x _ hpx
    have hx1 : x.1 = model' := by
      simp only [Bool.and_eq_true, beq_iff_eq] at hpx
      exact hpx.1
    have hneg : ¬ (x.1 == model && rowMatches x.2 w) = true := by
      intro hc
      have hx2 : x.1 = model := by
        simp only [Bool.and_eq_true, beq_iff_eq] at hc
        exact hc.1
      exact h (hx1.symm.trans hx2)
    rw [if_neg hneg]

/-- Updating rows of one model leaves rows of other models in place. -/
theorem mem_dbUpdate_ne_model (db : DB) (model : String) (w : Wh) (p : Rec)
    (e : String × Rec) (h : e.1 ≠ model) :
    e ∈ (dbUpdate db model w p).1 ↔ e ∈ db := by
  unfold dbUpdate
  constructor
  · intro he
    rcases List.mem_map.1 he with ⟨x, hx, hfx⟩
    by_cases hc : (x.1 == model && rowMatches x.2 w) = true
    · rw [if_pos hc] at hfx
      have hx1 : x.1 = model := by
        simp only [Bool.and_eq_true, beq_iff_eq] at hc
        exact hc.1
      exfalso
      apply h
      rw [← hfx]
      exact hx1
    · rw [if_neg hc] at hfx
      exact hfx ▸ hx
  · intro he
    refine List.mem_map.2 ⟨e, he, ?_⟩
    rw [if_neg]
    intro hc
    simp only [Bool.and_eq_true, beq_iff_eq] at hc
    exact h hc.1

/-- Appending a row of another model does not change a lookup. -/
theorem dbFindOne_append_other (db : DB) (e0 : String × Rec)
    (model : String) (w : Wh) (h : e0.1 ≠ model) :
    dbFindOne (db ++ [e0]) model w = dbFindOne db model w := by
  unfold dbFindOne
  rw [List.find?_append]
  have hnone : [e0].find? (fun e => e.1 == model && rowMatches e.2 w) = none := by
    rw [List.find?_eq_none]
    intro x hx
    rw [List.mem_singleton.1 hx]
    simp [h]
  rw [hnone]
  cases db.find? (fun e => e.1 == model && rowMatches e.2 w) <;> rfl

/-- Appending a row of another model does not change a `findMany`. -/
theorem dbFindMany_append_other (db : DB) (e0 : String × Rec)
    (model : String) (w : Wh) (h : e0.1 ≠ model) :
    dbFindMany (db ++ [e0]) model w = dbFindMany db model w := by
  unfold dbFindMany
  rw [List.filter_append]
  have hnil : [e0].filter (fun e => e.1 == model && rowMatches e.2 w) = [] := by
    rw [List.filter_eq_nil_iff]
    intro x hx
    rw [List.mem_singleton.1 hx]
    simp [h]
  rw [hnil, List.append_nil]

/-- Membership in a `findMany` result, row-wise. -/
theorem mem_dbFindMany (db : DB) (model : String) (w : Wh) (r : Rec) :
    r ∈ dbFindMany db model w ↔ (model, r) ∈ db ∧ rowMatches r w = true := by
  unfold dbFindMany
  constructor
  · intro h
    rcases List.mem_map.1 h with ⟨⟨e1, e2⟩, he, rfl⟩
    rcases List.mem_filter.1 he with ⟨hedb, hp⟩
    simp only [Bool.and_eq_true, beq_iff_eq] at hp
    rcases hp with ⟨h1, h2⟩
    subst h1
    exact ⟨hedb, h2⟩
  · rintro ⟨hin, hm⟩
    exact List.mem_map.2 ⟨(model, r), List.mem_filter.2 ⟨hin, by simp [hm]⟩, rfl⟩

/-- Membership in the recorded member user ids, row-wise. -/
theorem mem_memberUserIds (db : DB) (orgId v : Val) :
    v ∈ memberUserIds db orgId ↔
      ∃ r : Rec, ("member", r) ∈ db ∧
        rowMatches r [("organizationId", orgId)] = true ∧
        getFD r "userId" = v := by
  unfold memberUserIds
  constructor
  · intro h
    rcases List.mem_map.1 h with ⟨r, hr, rfl⟩
    rcases (mem_dbFindMany _ _ _ _).1 hr with ⟨h1, h2⟩
    exact ⟨r, h1, h2, rfl⟩
  · rintro ⟨r, h1, h2, rfl⟩
    exact List.mem_map.2 ⟨r, (mem_dbFindMany _ _ _ _).2 ⟨h1, h2⟩, rfl⟩

/-- A well-formed member row's `userId` read-back. -/
theorem getF_userId_of_wf {db : DB} {r : Rec} (hwf : memberWF db)
    (hr : ("member", r) ∈ db) :
    getF r "userId" = some (getFD r "userId") := by
  have h := hwf ("member", r) hr rfl
  rcases Option.isSome_iff_exists.1 h with ⟨v, hv⟩
  rw [hv]
  simp [getFD, hv]

/-- Field reads on a freshly created membership row. -/
theorem mkMemberRow_fields (orgId u : Val) :
    getF (mkMemberRow orgId u) "organizationId" = some orgId ∧
    getF (mkMemberRow orgId u) "userId" = some u ∧
    getF (mkMemberRow orgId u) "role" = some (.str "member") := by
  refine ⟨rfl, rfl, rfl⟩

/-- A freshly created membership row matches its organization clause. -/
theorem rowMatches_mkMemberRow (orgId u : Val) :
    rowMatches (mkMemberRow orgId u) [("organizationId", orgId)] = true := by
  simp [rowMatches, (mkMemberRow_fields orgId u).1]

/-- First component of the deletion fold of the Membership Reconciler:
one filter whose predicate conjoins the per-member conditions. -/
theorem syncDelete_fst (orgId : Val) (newIds : List Val) (ms : List Rec)
    (ad : DB × List WriteOp) :
    (ms.foldl (fun acc m =>
      if getFD m "userId" ∈ newIds then acc
      else
        (dbDelete acc.1 "member"
           [("organizationId", orgId), ("userId", getFD m "userId")],
         acc.2 ++ [.delete "member"
           [("organizationId", orgId), ("userId", getFD m "userId")]]))
      ad).1 =
      ad.1.filter (fun e => ms.all (fun m =>
        decide (getFD m "userId" ∈ newIds) ||
        !(e.1 == "member" && rowMatches e.2
            [("organizationId", orgId), ("userId", getFD m "userId")]))) := by
  induction ms generalizing ad with
  | nil => simp
  | cons m ms ih =>
    by_cases h : getFD m "userId" ∈ newIds
    · rw [List.foldl_cons, if_pos h, ih]
      apply List.filter_congr
      intro x _
      simp [h]
    · rw [List.foldl_cons, if_neg h, ih]
      simp only [dbDelete, List.filter_filter]
      apply List.filter_congr
      intro x _
      have hd : decide (getFD m "userId" ∈ newIds) = false := by simp [h]
      simp only [List.all_cons, hd, Bool.false_or]
      rw [Bool.and_comm]

/-- First component of the creation fold of the Membership Reconciler:
one append of the rows for the genuinely new user ids. -/
theorem syncCreate_fst (orgId : Val) (curIds : List Val) (us : List Val)
    (ad : DB × List WriteOp) :
    (us.foldl (fun acc uid =>
      if uid ∈ curIds then acc
      else
        (dbCreate acc.1 "member" (mkMemberRow orgId uid),
         acc.2 ++ [.create "member" (mkMemberRow orgId uid)]))
      ad).1 =
      ad.1 ++ (us.filter (fun u => !decide (u ∈ curIds))).map
        (fun u => ("member", mkMemberRow orgId u)) := by
  induction us generalizing ad with
  | nil => simp
  | cons u us ih =>
    by_cases h : u ∈ curIds
    · rw [List.foldl_cons, if_pos h, ih, List.filter_cons]
      simp [h]
    · rw [List.foldl_cons, if_neg h, ih, List.filter_cons]
      simp [h, dbCreate, List.append_assoc]

/-- The database the Membership Reconciler leaves behind: the original
rows minus the memberships of de-referenced users, plus one fresh row
per newly referenced user. -/
theorem syncMembers_db_eq (orgId : Val) (values : Rec) (db : DB) :
    (syncOrganizationMembers orgId values db).1 =
      db.filter (fun e =>
        (dbFindMany db "member" [("organizationId", orgId)]).all (fun m =>
          decide (getFD m "userId" ∈
            resolveMemberUserIds db (orgUserRefs values)) ||
          !(e.1 == "member" && rowMatches e.2
              [("organizationId", orgId), ("userId", getFD m "userId")]))) ++
      ((resolveMemberUserIds db (orgUserRefs values)).filter
          (fun u => !decide (u ∈ memberUserIds db orgId))).map
        (fun u => ("member", mkMemberRow orgId u)) := by
  unfold syncOrganizationMembers
  rw [syncCreate_fst, syncDelete_fst]

/-- A well-formed member row for the organization survives the deletion
phase exactly when its user id belongs to the target set. -/
theorem keep_iff (orgId : Val) (db : DB) (target : List Val)
    (hwf : memberWF db) (r : Rec) (hr : ("member", r) ∈ db)
    (horg : rowMatches r [("organizationId", orgId)] = true) :
    ((dbFindMany db "member" [("organizationId", orgId)]).all (fun m =>
        decide (getFD m "userId" ∈ target) ||
        !(rowMatches r
            [("organizationId", orgId), ("userId", getFD m "userId")])) =
      true) ↔
      getFD r "userId" ∈ target := by
  have hu := getF_userId_of_wf hwf hr
  constructor
  · intro hall
    by_contra hnot
    have hrcur : r ∈ dbFindMany db "member" [("organizationId", orgId)] :=
      (mem_dbFindMany db "member" _ r).2 ⟨hr, horg⟩
    have hthis := (List.all_eq_true.1 hall) r hrcur
    have hd : decide (getFD r "userId" ∈ target) = false := by simp [hnot]
    rw [hd, Bool.false_or, Bool.not_eq_true'] at hthis
    have hm : rowMatches r
        [("organizationId", orgId), ("userId", getFD r "userId")] = true := by
      simp only [rowMatches, List.all_cons, List.all_nil, Bool.and_true] at horg ⊢
      rw [horg, hu]
      simp
    rw [hm] at hthis
    exact Bool.noConfusion hthis
  · intro hin
    rw [List.all_eq_true]
    intro m _
    by_cases hmt : getFD m "userId" ∈ target
    · simp [hmt]
    · have hne : getFD r "userId" ≠ getFD m "userId" :=
        fun heq => hmt (heq ▸ hin)
      have hm : rowMatches r
          [("organizationId", orgId), ("userId", getFD m "userId")] = false := by
        simp only [rowMatches, List.all_cons, List.all_nil, Bool.and_true]
        rw [hu]
        have h2 : ((some (getFD r "userId") : Option Val) ==
            some (getFD m "userId")) = false := by
          simp [hne]
        rw [h2, Bool.and_false]
      simp [hm]

/-- The Membership Reconciler converges: after `syncOrganizationMembers`
the member set for the organization equals the resolved reference set,
rows in the intersection survive untouched, de-referenced rows are
deleted, newly referenced users get a default-role membership, and the
user rows are untouched. -/
theorem syncMembers_converged (orgId : Val) (values : Rec) (db : DB)
    (hwf : memberWF db) :
    membershipConverged db (syncOrganizationMembers orgId values db).1
      orgId values := by
  rw [membershipConverged, syncMembers_db_eq]
  have hmm : ("member" == "member") = true := by decide
  refine ⟨?_, ?_, ?_, ?_⟩
  · intro v
    rw [mem_memberUserIds]
    constructor
    · rintro ⟨r, hr, horg, rfl⟩
      rcases List.mem_append.1 hr with hF | hC
      · rcases List.mem_filter.1 hF with ⟨hdb, hkeep⟩
        simp only [hmm, Bool.true_and] at hkeep
        exact (keep_iff orgId db _ hwf r hdb horg).1 hkeep
      · rcases List.mem_map.1 hC with ⟨u, hu, hequ⟩
        have hru : r = mkMemberRow orgId u := by
          injection hequ with h1 h2
          exact h2.symm
        rw [hru, getFD, (mkMemberRow_fields orgId u).2.1]
        exact List.mem_of_mem_filter hu
    · intro hv
      by_cases hcur : v ∈ memberUserIds db orgId
      · rcases (mem_memberUserIds db orgId v).1 hcur with ⟨r, hr, horg, rfl⟩
        refine ⟨r, ?_, horg, rfl⟩
        refine List.mem_append.2 (Or.inl (List.mem_filter.2 ⟨hr, ?_⟩))
        simp only [hmm, Bool.true_and]
        exact (keep_iff orgId db _ hwf r hr horg).2 hv
      · refine ⟨mkMemberRow orgId v, ?_, rowMatches_mkMemberRow orgId v, ?_⟩
        · refine List.mem_append.2 (Or.inr (List.mem_map.2 ⟨v, ?_, rfl⟩))
          exact List.mem_filter.2 ⟨hv, by simp [hcur]⟩
        · rw [getFD, (mkMemberRow_fields orgId v).2.1]
          rfl
  · intro r hr horg
    constructor
    · intro hnot hin
      rcases List.mem_append.1 hin with hF | hC
      · rcases List.mem_filter.1 hF with ⟨_, hkeep⟩
        simp only [hmm, Bool.true_and] at hkeep
        exact hnot ((keep_iff orgId db _ hwf r hr horg).1 hkeep)
      · rcases List.mem_map.1 hC with ⟨u, hu, hequ⟩
        have hru : r = mkMemberRow orgId u := by
          injection hequ with h1 h2
          exact h2.symm
        apply hnot
        rw [hru, getFD, (mkMemberRow_fields orgId u).2.1]
        exact List.mem_of_mem_filter hu
    · intro hin
      refine List.mem_append.2 (Or.inl (List.mem_filter.2 ⟨hr, ?_⟩))
      simp only [hmm, Bool.true_and]
      exact (keep_iff orgId db _ hwf r hr horg).2 hin
  · intro v hv hcur
    refine ⟨?_, (mkMemberRow_fields orgId v).2.2⟩
    refine List.mem_append.2 (Or.inr (List.mem_map.2 ⟨v, ?_, rfl⟩))
    exact List.mem_filter.2 ⟨hv, by simp [hcur]⟩
  · intro r
    constructor
    · intro hin
      rcases List.mem_append.1 hin with hF | hC
      · exact (List.mem_filter.1 hF).1
      · rcases List.mem_map.1 hC with ⟨u, _, hequ⟩
        exfalso
        injection hequ with h1 _
        exact absurd h1.symm (by decide)
    · intro hin
      refine List.mem_append.2 (Or.inl (List.mem_filter.2 ⟨hin, ?_⟩))
      rw [List.all_eq_true]
      intro m _
      have hum : (("user" : String) == "member") = false := by decide
      simp [hum]

/-- The generated id survives the remaining assignments of a created
organization row. -/
theorem getFD_mergeRec_id (r : Rec) (v sl : Val) :
    getFD (mergeRec r
      [("id", v), ("slug", sl), ("createdAt", nowVal), ("updatedAt", nowVal)])
      "id" = v := by
  unfold mergeRec
  simp only [List.foldl_cons, List.foldl_nil]
  rw [getFD, getF_setF_ne _ _ _ _ (by decide), getF_setF_ne _ _ _ _ (by decide),
    getF_setF_ne _ _ _ _ (by decide), getF_setF_self]
  rfl

/-- Member-row well-formedness transports along agreement on member
rows. -/
theorem memberWF_of_memrow (db db' : DB)
    (hmemrow : ∀ r : Rec, ("member", r) ∈ db' ↔ ("member", r) ∈ db)
    (h : memberWF db) : memberWF db' := by
  intro e he hm
  obtain ⟨e1, e2⟩ := e
  simp only at hm
  subst hm
  exact h ("member", e2) ((hmemrow e2).1 he) rfl

/-- Membership convergence stated against a database that agrees with
the original on user lookups, member rows and member user ids. -/
theorem membershipConverged_congr (db db' dbAfter : DB) (orgId : Val)
    (values : Rec)
    (hres : resolveMemberUserIds db' (orgUserRefs values) =
      resolveMemberUserIds db (orgUserRefs values))
    (hmemrow : ∀ r : Rec, ("member", r) ∈ db' ↔ ("member", r) ∈ db)
    (hmuid : memberUserIds db' orgId = memberUserIds db orgId)
    (huser : ∀ r : Rec, ("user", r) ∈ db' ↔ ("user", r) ∈ db)
    (h : membershipConverged db' dbAfter orgId values) :
    membershipConverged db dbAfter orgId values := by
  rw [membershipConverged] at h ⊢
  obtain ⟨h1, h2, h3, h4⟩ := h
  rw [hres] at h1 h2 h3
  rw [hmuid] at h3
  refine ⟨h1, ?_, h3, fun r => (h4 r).trans (huser r)⟩
  intro r hr horg
  exact h2 r ((hmemrow r).2 hr) horg

/-- Updating rows of a non-member model preserves member-row
well-formedness. -/
theorem memberWF_dbUpdate_ne (db : DB) (model : String) (w : Wh) (p : Rec)
    (h : model ≠ "member") (hwf : memberWF db) :
    memberWF (dbUpdate db model w p).1 := by
  apply memberWF_of_memrow db _ _ hwf
  intro r
  exact mem_dbUpdate_ne_model db model w p ("member", r) (by simpa using (Ne.symm h))

/-- Appending a row of another model preserves membership of rows of a
given model. -/
theorem mem_append_single_other (db : DB) (e0 : String × Rec) (m : String)
    (r : Rec) (h : e0.1 ≠ m) : (m, r) ∈ db ++ [e0] ↔ (m, r) ∈ db := by
  rw [List.mem_append, List.mem_singleton]
  constructor
  · rintro (hin | he)
    · exact hin
    · exfalso
      exact h (by rw [← he])
  · exact fun hin => Or.inl hin

/-- Appending a row of a non-member model preserves member-row
well-formedness. -/
theorem memberWF_append_other (db : DB) (e0 : String × Rec)
    (h : e0.1 ≠ "member") (hwf : memberWF db) : memberWF (db ++ [e0]) := by
  apply memberWF_of_memrow db _ _ hwf
  intro r
  exact mem_append_single_other db e0 "member" r h

/-- C3: for an inbound organization create event, or update event whose
external id correlates to an existing local organization, once the
organization adapter's inbound transform completes the membership set
for the organization equals exactly the set of local user ids resolved
from the event's external user references: de-referenced members are
deleted, newly referenced users get a membership with default role
`member`, members in both sets keep their exact row, references with no
local user are dropped, and no user row is created. -/
theorem organizationFromAttio_membership_convergence :
    ∀ (values : Rec) (db : DB),
      memberWF db →
      (∀ org oid,
         dbFindOne db "organization" [("attioId", getFD values "record_id")] =
           some org →
         getF org "id" = some oid →
         membershipConverged db
           (organizationFromAttio .update values db).dbOf oid values) ∧
      membershipConverged db
        (organizationFromAttio .create values db).dbOf
        (.str (ctxGenerateId "organization")) values := by
  intro values db hwf
  constructor
  · intro org oid hfind hid
    have hfd : getFD org "id" = oid := by simp [getFD, hid]
    have hdbof : (organizationFromAttio .update values db).dbOf =
        (syncOrganizationMembers oid values
          (dbUpdate db "organization" [("id", oid)]
            (mergeRec (orgDataOf values) [("updatedAt", nowVal)])).1).1 := by
      simp [organizationFromAttio, hfind, hfd, FromAttioResult.dbOf]
    rw [hdbof]
    have hwf1 : memberWF (dbUpdate db "organization" [("id", oid)]
        (mergeRec (orgDataOf values) [("updatedAt", nowVal)])).1 :=
      memberWF_dbUpdate_ne db "organization" _ _ (by decide) hwf
    apply membershipConverged_congr db
      (dbUpdate db "organization" [("id", oid)]
        (mergeRec (orgDataOf values) [("updatedAt", nowVal)])).1 _ oid values
    · exact resolveMemberUserIds_congr _ db _
        (fun w => dbFindOne_dbUpdate_ne db "organization" _ _ "user" w
          (by decide))
    · intro r
      exact mem_dbUpdate_ne_model db "organization" _ _ ("member", r)
        (by decide : ("member" : String) ≠ "organization")
    · unfold memberUserIds
      rw [dbFindMany_dbUpdate_ne db "organization" _ _ "member" _ (by decide)]
    · intro r
      exact mem_dbUpdate_ne_model db "organization" _ _ ("user", r)
        (by decide : ("user" : String) ≠ "organization")
    · exact syncMembers_converged oid values _ hwf1
  · have hcid : getFD (orgCreatedData values db) "id" =
        .str (ctxGenerateId "organization") := by
      unfold orgCreatedData
      exact getFD_mergeRec_id _ _ _
    have hdbof : (organizationFromAttio .create values db).dbOf =
        (syncOrganizationMembers (.str (ctxGenerateId "organization")) values
          (db ++ [("organization", orgCreatedData values db)])).1 := by
      simp [organizationFromAttio, FromAttioResult.dbOf, hcid, dbCreate]
    rw [hdbof]
    have hwf1 : memberWF (db ++ [("organization", orgCreatedData values db)]) :=
      memberWF_append_other db _
        (by decide : ("organization" : String) ≠ "member") hwf
    apply membershipConverged_congr db
      (db ++ [("organization", orgCreatedData values db)]) _
      (.str (ctxGenerateId "organization")) values
    · exact resolveMemberUserIds_congr _ db _
        (fun w => dbFindOne_append_other db _ "user" w
          (by decide : ("organization" : String) ≠ "user"))
    · intro r
      exact mem_append_single_other db _ "member" r
        (by decide : ("organization" : String) ≠ "member")
    · unfold memberUserIds
      rw [dbFindMany_append_other db _ "member" _
        (by decide : ("organization" : String) ≠ "member")]
    · intro r
      exact mem_append_single_other db _ "user" r
        (by decide : ("organization" : String) ≠ "user")
    · exact syncMembers_converged _ values _ hwf1

/-- Inbound organization values of the C3 witness: references to the
external users `rb`, `rc`, `rd`. -/
def c3Values : Rec :=
  [("record_id", .str "ao"), ("users", .arr [.str "rb", .str "rc", .str "rd"])]

/-- Database of the C3 witness: organization `o1` with members
`A`, `B`, `C`, and users `A`-`D` correlated to external ids. -/
def c3Db : DB :=
  [("organization", [("id", .str "o1"), ("attioId", .str "ao")]),
   ("user", [("id", .str "A"), ("attioId", .str "ra")]),
   ("user", [("id", .str "B"), ("attioId", .str "rb")]),
   ("user", [("id", .str "C"), ("attioId", .str "rc")]),
   ("user", [("id", .str "D"), ("attioId", .str "rd")]),
   ("member", [("organizationId", .str "o1"), ("userId", .str "A")]),
   ("member", [("organizationId", .str "o1"), ("userId", .str "B")]),
   ("member", [("organizationId", .str "o1"), ("userId", .str "C")])]

/-- Closed instance discharging the hypotheses of the C3 theorem on the
spec's convergence example: members `{A,B,C}` with reference set
resolving to `{B,C,D}`. -/
theorem organizationFromAttio_membership_convergence_witness :
    membershipConverged c3Db
      (organizationFromAttio .update c3Values c3Db).dbOf (.str "o1")
      c3Values :=
  (organizationFromAttio_membership_convergence c3Values c3Db
      (by unfold memberWF; decide)).1
    [("id", .str "o1"), ("attioId", .str "ao")] (.str "o1")
    (by decide) (by decide)
